import Mathlib

/-!
Shallow embedding of the tartiflette GraphQL execution engine's coercion
layer (the `coercers/*` and `resolver/factory.py` modules), together with
proofs about its error-handling and null-propagation behaviour.

Python runtime values are modelled by `Value`; the distinguished
`UNDEFINED_VALUE` sentinel is the `vUndefined` constructor, Python `None` is
`vNull`.  Exceptions raised by coercers are modelled with `Except`;
the mutable `ExecutionContext.errors` list is threaded explicitly.
-/

namespace Tartiflette

/-- Python runtime value as seen by the coercion engine.  `vUndefined` is the
`UNDEFINED_VALUE` sentinel from `tartiflette/constants.py` (absent from
`src/`; modelled from the spec's "ABSENT/sentinel-invalid: a distinguished
marker meaning no value, distinct from an explicit null"). -/
inductive Value where
  | vNull
  | vUndefined
  | vInt (n : Int)
  | vStr (s : String)
  | vBool (b : Bool)
  | vList (items : List Value)
  | vObj (fields : List (String × Value))

/-- Modelled from the spec: `tartiflette/utils/values.py` is absent from
`src/`; `is_invalid_value(value)` tests identity with the
`UNDEFINED_VALUE` sentinel. -/
def is_invalid_value : Value → Bool
  | .vUndefined => true
  | _ => false

/-- The Python `value is None` test. -/
def Value.is_none : Value → Bool
  | .vNull => true
  | _ => false

/-- Modelled from the spec: the Python `type(result)` rendering
interpolated into the leaf coercion error message; no claim depends on
its exact text. -/
def pythonTypeName : Value → String
  | .vNull => "NoneType"
  | .vUndefined => "UndefinedValue"
  | .vInt _ => "int"
  | .vStr _ => "str"
  | .vBool _ => "bool"
  | .vList _ => "list"
  | .vObj _ => "dict"

/-- AST value nodes (`tartiflette/language/ast`), reduced to the variants
the coercers inspect. -/
inductive ValueNode where
  | nullValue
  | variableNode (name : String)
  | intValue (n : Int)
  | stringValue (s : String)
  | booleanValue (b : Bool)
  | enumValue (s : String)
  | listValue (values : List ValueNode)
  | objectValue (fields : List (String × ValueNode))

/-- AST argument node: a name and a value node. -/
structure ArgumentNode where
  name : String
  value : ValueNode

/-- One segment of an error path: a field name or a list index. -/
inductive PathSeg where
  | fname (s : String)
  | idx (n : Nat)
deriving DecidableEq

/-- Modelled from the spec: `tartiflette/coercers/common.py` is absent from
`src/`.  A `Path` is "an immutable, singly-linked, append-only chain of
path segments (field name or list index)"; `root` stands for the Python
`None` parent. -/
inductive Path where
  | root
  | cons (prev : Path) (key : PathSeg)

/-- Builds `Path(prev, key)` from an optional parent, as the Python
constructor accepts `None` for the parent. -/
def mkPath (prev : Option Path) (key : PathSeg) : Path :=
  .cons (match prev with | none => .root | some p => p) key

/-- Path rendered as the ordered list of its segments, root first. -/
def Path.as_list : Path → List PathSeg
  | .root => []
  | .cons p k => p.as_list ++ [k]

/-- Modelled from the spec: dotted/bracketed rendering of a path used in
input-coercion error messages, e.g. `value.fieldName` (spec §7/§8). -/
def Path.render : Path → String
  | .root => "value"
  | .cons p (.fname s) => p.render ++ "." ++ s
  | .cons p (.idx n) => p.render ++ "[" ++ toString n ++ "]"

/-- Schema type descriptor (`tartiflette/types/*`), a closed sum as in the
spec's data model. -/
inductive GraphQLType where
  | scalar (name : String)
  | enum (name : String)
  | inputObject (name : String)
  | object (name : String)
  | interface (name : String)
  | union (name : String)
  | list (ofType : GraphQLType)
  | nonNull (ofType : GraphQLType)

/-- Human-readable rendering of a type, mirroring each class's `__str__`:
`NonNull` appends `!`, `List` wraps in brackets, named types render their
name. -/
def GraphQLType.render : GraphQLType → String
  | .scalar n => n
  | .enum n => n
  | .inputObject n => n
  | .object n => n
  | .interface n => n
  | .union n => n
  | .list t => "[" ++ t.render ++ "]"
  | .nonNull t => t.render ++ "!"

/-- Type predicate from `types/helpers/definition.py`. -/
def is_non_null_type : GraphQLType → Bool
  | .nonNull _ => true
  | _ => false

/-- Type predicate from `types/helpers/definition.py`. -/
def is_list_type : GraphQLType → Bool
  | .list _ => true
  | _ => false

/-- Type predicate from `types/helpers/definition.py`. -/
def is_wrapping_type : GraphQLType → Bool
  | .list _ => true
  | .nonNull _ => true
  | _ => false

/-- Type predicate from `types/helpers/definition.py`: scalar, enum or
input object, possibly under wrappers. -/
def is_input_type : GraphQLType → Bool
  | .scalar _ => true
  | .enum _ => true
  | .inputObject _ => true
  | .list t => is_input_type t
  | .nonNull t => is_input_type t
  | _ => false

/-- Unwrapping from `types/helpers/definition.py`: strips `List`/`NonNull`
wrappers down to the innermost named type. -/
def get_wrapped_type : GraphQLType → GraphQLType
  | .list t => get_wrapped_type t
  | .nonNull t => get_wrapped_type t
  | t => t

/-- Structured error (`TartifletteError` from `types/exceptions`, absent
from `src/`; modelled from the spec: "message, optional list of source
locations, optional path").  Source locations are not modelled. -/
structure TartifletteError where
  message : String
  path : Option (List PathSeg)
deriving DecidableEq

/-- Modelled from the spec: `coercers/common.py` is absent from `src/`.
Builds a structured coercion error; per the spec's concrete error texts
(§8) the rendered message ends with a period, and the optional path is
attached. -/
def coercion_error (message : String) (path : Option Path) : TartifletteError :=
  ⟨message ++ ".", path.map Path.as_list⟩

/-- Result of an input coercion (`CoercionResult` from
`coercers/common.py`, absent from `src/`; modelled from the spec's
"Coercion Result — a pair (value, errors)").  The Python defaults are
`None` for the value and an empty error list. -/
structure CoercionResult where
  value : Value := .vNull
  errors : List TartifletteError := []

/-- Raw exception flowing through output coercion: `ValueError`,
`TypeError`, or an already-located `TartifletteError` (a "coercible"
exception in `utils/errors.py` terms). -/
inductive RawError where
  | valueError (message : String)
  | typeError (message : String)
  | gqlError (error : TartifletteError)

/-- Embeds `utils/errors.located_error` restricted to a single exception:
a coercible error keeps its own path (the path is only attached when
absent), any other exception becomes a `TartifletteError` carrying its
message and the given path. -/
def locate_error (raw : RawError) (path : List PathSeg) : TartifletteError :=
  match raw with
  | .gqlError e => { e with path := some (e.path.getD path) }
  | .valueError m => ⟨m, some path⟩
  | .typeError m => ⟨m, some path⟩

/-- Per-request execution context, reduced to its accumulating error list
(the only part the coercion claims touch). -/
structure ExecutionContext where
  errors : List TartifletteError

/-- Appends an error to the execution context, as
`ExecutionContext.add_error`. -/
def ExecutionContext.add_error (ctx : ExecutionContext) (e : TartifletteError) :
    ExecutionContext :=
  ⟨ctx.errors ++ [e]⟩

/-- Association-list lookup, the Python `dict.get`. -/
def dictGet (kvs : List (String × α)) (key : String) : Option α :=
  match kvs with
  | [] => none
  | (k, v) :: rest => if k = key then some v else dictGet rest key

/-! ## Output coercion (`coercers/output.py`, `resolver/factory.py`)

An output coercer takes the execution context, the current path and the
resolved value, and returns the updated context together with either the
coerced value or a raised exception. -/

/-- The shape of a composed output coercer. -/
abbrev OutputCoercer :=
  ExecutionContext → Path → Value → ExecutionContext × Except RawError Value

namespace Output

/-- Embeds `resolver/factory.handle_field_error`: locate the raw error,
re-raise it when the field's return type is non-null, otherwise append it
to the execution context and resolve the field's value as `None`. -/
def handle_field_error (raw_error : RawError) (path : Path)
    (return_type : GraphQLType) (execution_context : ExecutionContext) :
    ExecutionContext × Except RawError Value :=
  let error := locate_error raw_error path.as_list
  if is_non_null_type return_type then
    (execution_context, .error (.gqlError error))
  else
    (execution_context.add_error error, .ok .vNull)

/-- Embeds `resolver/factory.complete_value_catching_error`: re-raise an
exception result, otherwise run the output coercer; any exception is
handed to `handle_field_error`. -/
def complete_value_catching_error (output_coercer : OutputCoercer)
    (return_type : GraphQLType) (execution_context : ExecutionContext)
    (path : Path) (result : Except RawError Value) :
    ExecutionContext × Except RawError Value :=
  match result with
  | .error raw => handle_field_error raw path return_type execution_context
  | .ok value =>
    match output_coercer execution_context path value with
    | (ctx₂, .ok coerced) => (ctx₂, .ok coerced)
    | (ctx₂, .error raw) => handle_field_error raw path return_type ctx₂

/-- Embeds `coercers/output.leaf_coercer` (with its `null_coercer_wrapper`
decorator): `None` is returned as-is; otherwise the leaf type's
`coerce_output` runs and a sentinel-invalid result raises `ValueError`.
The leaf's `coerce_output` implementation is a parameter. -/
def leaf_coercer (coerce_output : Value → Value) (leaf_name : String) :
    OutputCoercer :=
  fun ctx _path result =>
    match result with
    | .vNull => (ctx, .ok .vNull)
    | v =>
      let coerced_result := coerce_output v
      if is_invalid_value coerced_result then
        (ctx, .error (.valueError
          ("Expected value of type " ++ leaf_name ++ " but received "
            ++ pythonTypeName v ++ ".")))
      else
        (ctx, .ok coerced_result)

/-- Items loop of `coercers/output.list_coercer`: each item goes through
`complete_value_catching_error` at `Path(path, index)`; a re-raised item
exception aborts the remaining items and propagates, as the awaited list
comprehension does. -/
def coerce_list_items (inner_coercer : OutputCoercer) (item_type : GraphQLType)
    (ctx : ExecutionContext) (path : Path) (index : Nat) :
    List Value → ExecutionContext × Except RawError (List Value)
  | [] => (ctx, .ok [])
  | item :: rest =>
    match complete_value_catching_error inner_coercer item_type ctx
        (.cons path (.idx index)) (.ok item) with
    | (ctx₂, .error raw) => (ctx₂, .error raw)
    | (ctx₂, .ok coerced) =>
      match coerce_list_items inner_coercer item_type ctx₂ path (index + 1) rest with
      | (ctx₃, .error raw) => (ctx₃, .error raw)
      | (ctx₃, .ok coerceds) => (ctx₃, .ok (coerced :: coerceds))

/-- Embeds `coercers/output.list_coercer` (with its `null_coercer_wrapper`
decorator): `None` passes through, a non-list result raises `TypeError`,
and list items are coerced through `complete_value_catching_error` at
`path + index` with the item type.  `parent_name`/`field_name` stand for
`info.parent_type.name`/`info.field_name`. -/
def list_coercer (inner_coercer : OutputCoercer) (item_type : GraphQLType)
    (parent_name field_name : String) : OutputCoercer :=
  fun ctx path result =>
    match result with
    | .vNull => (ctx, .ok .vNull)
    | .vList items =>
      match coerce_list_items inner_coercer item_type ctx path 0 items with
      | (ctx₂, .error raw) => (ctx₂, .error raw)
      | (ctx₂, .ok coerceds) => (ctx₂, .ok (.vList coerceds))
    | _ =>
      (ctx, .error (.typeError
        ("Expected Iterable, but did not find one for field "
          ++ parent_name ++ "." ++ field_name ++ ".")))

/-- Embeds `coercers/output.non_null_coercer`: delegate to the inner
coercer, then raise `ValueError` exactly when the coerced output is
`None`. -/
def non_null_coercer (inner_coercer : OutputCoercer)
    (parent_name field_name : String) : OutputCoercer :=
  fun ctx path result =>
    match inner_coercer ctx path result with
    | (ctx₂, .ok .vNull) =>
      (ctx₂, .error (.valueError
        ("Cannot return null for non-nullable field "
          ++ parent_name ++ "." ++ field_name ++ ".")))
    | other => other

/-- An output coercer whose value outcome ignores the execution context
and never appends errors of its own; the leaf and non-null coercer chains
are of this shape.  Modelling combinator, not source code. -/
def pureCoercer (f : Path → Value → Except RawError Value) : OutputCoercer :=
  fun ctx path v => (ctx, f path v)

/-- A GraphQL response reduced to its `data` and `errors` keys. -/
structure Response where
  data : Option Value
  errors : List TartifletteError

/-- Modelled from the spec: `execution/execute.py` (root field execution
and response assembly) is absent from `src/`.  For a single-root-field
query, the field resolves through `complete_value_catching_error` at
`Path(None, field_name)`; a re-raised error at the root nulls the whole
response (`data = None`) with the located error recorded, otherwise
`data` is the one-key object map (spec §4.7/§4.8, §6). -/
def execute_single_field_request (field_name : String)
    (return_type : GraphQLType) (output_coercer : OutputCoercer)
    (resolver_result : Except RawError Value) : Response :=
  match complete_value_catching_error output_coercer return_type ⟨[]⟩
      (.cons .root (.fname field_name)) resolver_result with
  | (ctx, .ok v) => ⟨some (.vObj [(field_name, v)]), ctx.errors⟩
  | (ctx, .error raw) =>
    ⟨none, ctx.errors ++ [locate_error raw [.fname field_name]]⟩

end Output

/-! ## Input (runtime-value) coercion (`coercers/inputs/*`)

An input coercer takes the raw value and the optional current path and
returns a `CoercionResult`; the AST node used for error locations and the
user context are opaque and omitted. -/

/-- The shape of a composed input coercer. -/
abbrev InputCoercer := Value → Option Path → CoercionResult

namespace Inputs

/-- Embeds `coercers/inputs/null_coercer.null_coercer_wrapper`: a `None`
value short-circuits to `CoercionResult(value=None)` without invoking the
wrapped coercer. -/
def null_coercer_wrapper (coercer : InputCoercer) : InputCoercer :=
  fun value path =>
    match value with
    | .vNull => { value := .vNull }
    | v => coercer v path

/-- Embeds `coercers/inputs/non_null_coercer.non_null_coercer`: a `None`
value yields exactly one "Expected non-nullable type ... not to be null"
error without delegating; any other value goes to the inner coercer. -/
def non_null_coercer (schema_type : GraphQLType) (inner_coercer : InputCoercer) :
    InputCoercer :=
  fun value path =>
    match value with
    | .vNull =>
      { errors := [coercion_error
          ("Expected non-nullable type < " ++ schema_type.render
            ++ " > not to be null") path] }
    | v => inner_coercer v path

/-- Input-object field definition (`GraphQLInputField` post-bake): its
type, optional default literal, and the baked literal/input coercers. -/
structure GraphQLInputField where
  gql_type : GraphQLType
  default_value : Option ValueNode
  literal_coercer : ValueNode → Value
  input_coercer : InputCoercer

/-- Embeds `coercers/inputs/input_object_coercer.input_field_value_coercer`:
an absent (sentinel) value takes the coerced default when one exists, is an
error for a non-null field type, and is the `UNDEFINED_VALUE` sentinel
(here `none`) otherwise; a present value runs the field's input coercer. -/
def input_field_value_coercer (input_field : GraphQLInputField)
    (value : Value) (path : Path) : Option CoercionResult :=
  if is_invalid_value value then
    match input_field.default_value with
    | some default => some { value := input_field.literal_coercer default }
    | none =>
      if is_non_null_type input_field.gql_type then
        some { errors := [coercion_error
          ("Field < " ++ path.render ++ " > of required type < "
            ++ input_field.gql_type.render ++ " > was not provided") none] }
      else none
  else
    some (input_field.input_coercer value (some path))

/-- Input-object type with its ordered declared fields
(`input_object_type.arguments`). -/
structure GraphQLInputObjectType where
  name : String
  arguments : List (String × GraphQLInputField)

/-- Aggregation loop of
`coercers/inputs/input_object_coercer.input_object_coercer`: sentinel
results are skipped, a field's errors are all collected, and a field's
value is added to the result map only while no error has been seen yet. -/
def collect_input_fields :
    List (String × Option CoercionResult) → List TartifletteError →
    List (String × Value) → List TartifletteError × List (String × Value)
  | [], errors, values => (errors, values)
  | (_, none) :: rest, errors, values => collect_input_fields rest errors values
  | (name, some result) :: rest, errors, values =>
    if result.errors ≠ [] then
      collect_input_fields rest (errors ++ result.errors) values
    else if errors = [] then
      collect_input_fields rest errors (values ++ [(name, result.value)])
    else
      collect_input_fields rest errors values

/-- Unknown-key scan of `input_object_coercer`: one error per supplied key
that is not among the declared fields. -/
def unknown_field_errors (input_object_type : GraphQLInputObjectType)
    (supplied : List (String × Value)) (path : Option Path) :
    List TartifletteError :=
  supplied.filterMap fun kv =>
    if (dictGet input_object_type.arguments kv.1).isSome then none
    else some (coercion_error
      ("Field < " ++ kv.1 ++ " > is not defined by type < "
        ++ input_object_type.name ++ " >") path)

/-- Embeds `coercers/inputs/input_object_coercer.input_object_coercer`
(with its `null_coercer_wrapper` decorator): a non-mapping value is one
error; otherwise every declared field runs through
`input_field_value_coercer` at `Path(path, field_name)` with the supplied
value or the sentinel, results are aggregated by `collect_input_fields`,
and unknown supplied keys each add one error. -/
def input_object_coercer (input_object_type : GraphQLInputObjectType) :
    InputCoercer :=
  fun value path =>
    match value with
    | .vNull => { value := .vNull }
    | .vObj supplied =>
      let results := input_object_type.arguments.map fun nf =>
        (nf.1, input_field_value_coercer nf.2
          ((dictGet supplied nf.1).getD .vUndefined) (mkPath path (.fname nf.1)))
      let acc := collect_input_fields results [] []
      { value := .vObj acc.2
        errors := acc.1 ++ unknown_field_errors input_object_type supplied path }
    | _ =>
      { errors := [coercion_error
          ("Expected type < " ++ input_object_type.name
            ++ " > to be an object") path] }

end Inputs

/-! ## Literal coercion (`coercers/literals/*`)

A literal coercer takes the AST node and the coerced variable map and
returns a value, with the `UNDEFINED_VALUE` sentinel (`vUndefined`) for the
spec's ABSENT. -/

/-- The coerced variable map (`execution_context.variable_values`): Python
`None` entries are `vNull`; the sentinel can in principle be stored. -/
abbrev VariableMap := List (String × Value)

/-- The shape of a composed literal coercer: the node may be absent
(Python `None`), and the variable map may be empty. -/
abbrev LiteralCoercer := Option ValueNode → VariableMap → Value

namespace Literals

/-- Embeds `coercers/literal.is_missing_variable` (the copy of
`coercers/literals/utils.py` present in `src/`): the node is a variable
reference whose name has no usable value — an empty variable map, name
absent, or the stored value is the sentinel. -/
def is_missing_variable (value_node : ValueNode) (varMap : VariableMap) : Bool :=
  match value_node with
  | .variableNode name =>
    varMap.isEmpty
      || match dictGet varMap name with
         | none => true
         | some v => is_invalid_value v
  | _ => false

/-- Embeds
`coercers/literals/null_and_variable_coercer.null_and_variable_coercer_wrapper`:
an absent node is the sentinel, an explicit null literal is `None`, a
variable reference returns the variable's stored runtime value as-is (or
the sentinel when missing), and anything else goes to the wrapped
coercer. -/
def null_and_variable_coercer_wrapper
    (coercer : ValueNode → VariableMap → Value) : LiteralCoercer :=
  fun node varMap =>
    match node with
    | none => .vUndefined
    | some .nullValue => .vNull
    | some (.variableNode name) =>
      if varMap.isEmpty then .vUndefined
      else
        let value := (dictGet varMap name).getD .vUndefined
        if is_invalid_value value then .vUndefined else value
    | some other => coercer other varMap

/-- Items loop of `coercers/literals/list_coercer.list_coercer`:
sequential and order-dependent; a missing-variable item aborts the whole
list for a non-null item type and becomes `None` otherwise, and an
invalid inner coercion aborts the whole list. -/
def coerce_literal_list_items (is_non_null_item_type : Bool)
    (inner_coercer : LiteralCoercer) (varMap : VariableMap) :
    List ValueNode → Value
  | [] => .vList []
  | item_node :: rest =>
    if is_missing_variable item_node varMap then
      if is_non_null_item_type then .vUndefined
      else
        match coerce_literal_list_items is_non_null_item_type inner_coercer
            varMap rest with
        | .vList coerceds => .vList (.vNull :: coerceds)
        | other => other
    else
      let item_value := inner_coercer (some item_node) varMap
      if is_invalid_value item_value then .vUndefined
      else
        match coerce_literal_list_items is_non_null_item_type inner_coercer
            varMap rest with
        | .vList coerceds => .vList (item_value :: coerceds)
        | other => other

/-- Embeds `coercers/literals/list_coercer.list_coercer` (with its
`null_and_variable_coercer_wrapper` decorator): a list-value node is
coerced item by item via `coerce_literal_list_items`; any other node is
coerced as a single-element list, with an invalid result propagating the
sentinel. -/
def list_coercer (is_non_null_item_type : Bool)
    (inner_coercer : LiteralCoercer) : LiteralCoercer :=
  null_and_variable_coercer_wrapper fun node varMap =>
    match node with
    | .listValue values =>
      coerce_literal_list_items is_non_null_item_type inner_coercer
        varMap values
    | other =>
      let coerced_value := inner_coercer (some other) varMap
      if is_invalid_value coerced_value then .vUndefined
      else .vList [coerced_value]

end Literals

/-! ## Variable coercion (`coercers/variables.py`) -/

/-- Modelled from the spec: Python `repr` used when interpolating a raw
value into an error message; rendered shallowly, no claim depends on it. -/
def renderValue : Value → String
  | .vNull => "None"
  | .vUndefined => "UNDEFINED_VALUE"
  | .vInt n => toString n
  | .vStr s => s
  | .vBool b => if b then "True" else "False"
  | .vList _ => "[...]"
  | .vObj _ => "<object>"

/-- Modelled from the spec: Python `str` of an AST value node used when
interpolating it into an error message; rendered shallowly, no claim
depends on it. -/
def renderValueNode : ValueNode → String
  | .nullValue => "null"
  | .variableNode name => "$" ++ name
  | .intValue n => toString n
  | .stringValue s => s
  | .booleanValue b => if b then "true" else "false"
  | .enumValue s => s
  | .listValue _ => "[...]"
  | .objectValue _ => "<object>"

/-- Executable variable definition, post-bake: name, declared type,
optional default literal (`UNDEFINED_VALUE` when absent, hence `Option`),
and the baked input/literal coercers the `coercer` partial closes over. -/
structure ExecutableVariableDefinition where
  name : String
  graphql_type : GraphQLType
  default_value : Option ValueNode
  input_coercer : Value → CoercionResult
  literal_coercer : ValueNode → Value

namespace Variables

/-- Embeds `coercers/variables.variable_coercer`: a non-input declared
type is an error; an omitted variable takes its coerced default when one
is declared, is an error for a non-null type, and is the
`UNDEFINED_VALUE` sentinel (here `none`) otherwise; an explicit null for
a non-null type is a distinct error; a supplied value runs the input
coercer, with coercion errors re-labelled with the variable name. -/
def variable_coercer (evd : ExecutableVariableDefinition)
    (raw_variable_values : List (String × Value)) : Option CoercionResult :=
  let var_name := evd.name
  let var_type := evd.graphql_type
  if ¬is_input_type var_type then
    some { errors := [⟨"Variable < $" ++ var_name ++ " > expected value of type "
      ++ "< " ++ var_type.render ++ " > which cannot be used as "
      ++ "an input type.", none⟩] }
  else
    let has_value := (dictGet raw_variable_values var_name).isSome
    let value := (dictGet raw_variable_values var_name).getD .vUndefined
    match evd.default_value, has_value with
    | some default, false =>
      some { value := evd.literal_coercer default }
    | _, _ =>
      if (!has_value || value.is_none) && is_non_null_type var_type then
        some { errors := [⟨if has_value then
            "Variable < $" ++ var_name ++ " > of non-null type "
              ++ "< " ++ var_type.render ++ " > must not be null."
          else
            "Variable < $" ++ var_name ++ " > of required type "
              ++ "< " ++ var_type.render ++ " > was not provided.", none⟩] }
      else if has_value then
        let result := evd.input_coercer value
        if result.errors ≠ [] then
          some { errors := result.errors.map fun e =>
            { e with message := "Variable < $" ++ var_name
                ++ " > got invalid value < " ++ renderValue value ++ " >; "
                ++ e.message } }
        else
          some { value := result.value }
      else
        none

/-- Embeds `coercers/variables.coerce_variables`: each definition's
coercer runs; sentinel results are skipped entirely, erroring results
contribute only their errors, and clean results populate the coerced
variable map. -/
def coerce_variables (defs : List ExecutableVariableDefinition)
    (raw_variable_values : List (String × Value)) :
    VariableMap × List TartifletteError :=
  match defs with
  | [] => ([], [])
  | evd :: rest =>
    let tail := coerce_variables rest raw_variable_values
    match variable_coercer evd raw_variable_values with
    | none => tail
    | some result =>
      if result.errors ≠ [] then (tail.1, result.errors ++ tail.2)
      else ((evd.name, result.value) :: tail.1, tail.2)

end Variables

/-! ## Argument coercion (`coercers/argument.py`, `coercers/arguments.py`) -/

/-- Argument definition, post-bake: name, declared type, optional default
literal, the baked literal coercer, and the `on_argument_execution`
directive chain the baked `coercer` partial closes over (`none` when no
directives are registered). -/
structure GraphQLArgument where
  name : String
  graphql_type : GraphQLType
  default_value : Option ValueNode
  literal_coercer : ValueNode → VariableMap → Value
  directives : Option (Value → Except TartifletteError Value)

namespace Arguments

/-- Presence analysis at the top of `coercers/argument.argument_coercer`:
for a variable-bound argument, `has_value` is variable-map membership and
`is_null` tests the stored value against `None`; for a literal-bound
argument, `has_value` is node presence and `is_null` recognises an
explicit null literal. -/
def argument_presence (argument_node : Option ArgumentNode)
    (variable_values : VariableMap) : Bool × Bool :=
  match argument_node with
  | some an =>
    match an.value with
    | .variableNode variable_name =>
      ((dictGet variable_values variable_name).isSome,
        ((dictGet variable_values variable_name).getD .vUndefined).is_none)
    | .nullValue => (true, true)
    | _ => (true, false)
  | none => (false, false)

/-- Value computation of `coercers/argument.argument_coercer`, before the
directive chain: the default literal is used when no value is present,
the non-null checks raise their three distinct errors, and a present
value is the null literal, the variable's stored runtime value as-is, or
the coerced literal (whose sentinel result is an error). -/
def argument_coerced_value (argument_definition : GraphQLArgument)
    (argument_node : Option ArgumentNode) (variable_values : VariableMap) :
    Except TartifletteError Value :=
  let name := argument_definition.name
  let arg_type := argument_definition.graphql_type
  let presence := argument_presence argument_node variable_values
  let has_value := presence.1
  let is_null := presence.2
  if !has_value && argument_definition.default_value.isSome then
    .ok (argument_definition.literal_coercer
      (argument_definition.default_value.getD .nullValue) variable_values)
  else if (!has_value || is_null) && is_non_null_type arg_type then
    if is_null then
      .error ⟨"Argument < " ++ name ++ " > of non-null type < "
        ++ arg_type.render ++ " > must not be null.", none⟩
    else
      match argument_node with
      | some ⟨_, .variableNode variable_name⟩ =>
        .error ⟨"Argument < " ++ name ++ " > of required type < "
          ++ arg_type.render ++ " > was provided the variable < $"
          ++ variable_name ++ " > which was not provided a runtime value.",
          none⟩
      | _ =>
        .error ⟨"Argument < " ++ name ++ " > of required type < "
          ++ arg_type.render ++ " > was not provided.", none⟩
  else if has_value then
    match argument_node with
    | some ⟨_, .nullValue⟩ => .ok .vNull
    | some ⟨_, .variableNode variable_name⟩ =>
      .ok ((dictGet variable_values variable_name).getD .vUndefined)
    | some ⟨_, value_node⟩ =>
      let coerced_value :=
        argument_definition.literal_coercer value_node variable_values
      if is_invalid_value coerced_value then
        .error ⟨"Argument < " ++ name ++ " > has invalid value < "
          ++ renderValueNode value_node ++ " >.", none⟩
      else .ok coerced_value
    | none => .ok .vUndefined
  else
    .ok .vUndefined

/-- Embeds `coercers/argument.argument_coercer`: the computed value, then
the `on_argument_execution` directive chain, skipped when no directives
are registered or the value is the sentinel. -/
def argument_coercer (argument_definition : GraphQLArgument)
    (argument_node : Option ArgumentNode) (variable_values : VariableMap) :
    Except TartifletteError Value :=
  match argument_coerced_value argument_definition argument_node
      variable_values with
  | .error e => .error e
  | .ok coerced_value =>
    match argument_definition.directives with
    | none => .ok coerced_value
    | some directives =>
      if is_invalid_value coerced_value then .ok coerced_value
      else directives coerced_value

/-- Embeds `coercers/arguments.coerce_arguments`: absent argument nodes or
an empty definition list short-circuit to an empty map; otherwise every
definition's coercer runs against the named argument node, all raised
errors are collected in definition order (an erroring argument is also
written into the value map in the source, but that map is discarded
whenever any error exists, so only non-sentinel successes are
observable), and a non-empty error list is raised as one
`MultipleException` aggregate. -/
def coerce_arguments (argument_definitions : List GraphQLArgument)
    (node_arguments : Option (List ArgumentNode))
    (variable_values : VariableMap) :
    Except (List TartifletteError) (List (String × Value)) :=
  match node_arguments with
  | none => .ok []
  | some argument_nodes =>
    if argument_definitions.isEmpty then .ok []
    else
      let argument_nodes_map := argument_nodes.map fun an => (an.name, an)
      let results := argument_definitions.map fun ad =>
        (ad.name, argument_coercer ad (dictGet argument_nodes_map ad.name)
          variable_values)
      let coercion_errors := results.filterMap fun nr =>
        match nr.2 with
        | .error e => some e
        | .ok _ => none
      let coerced_values := results.filterMap fun nr =>
        match nr.2 with
        | .ok v => if is_invalid_value v then none else some (nr.1, v)
        | .error _ => none
      if coercion_errors.isEmpty then .ok coerced_values
      else .error coercion_errors

end Arguments

/-! ## Closed-form characterizations used by the theorems -/

namespace Output

/-- Value a list slot receives under per-item error isolation: the item's
own coerced value, or `None` when its coercion raised. -/
def isolatedItemValue (f : Path → Value → Except RawError Value)
    (path : Path) (i : Nat) (item : Value) : Value :=
  match f (.cons path (.idx i)) item with
  | .ok v => v
  | .error _ => .vNull

/-- Errors a list slot contributes under per-item error isolation: none on
success, the located error on failure. -/
def isolatedItemErrors (f : Path → Value → Except RawError Value)
    (path : Path) (i : Nat) (item : Value) : List TartifletteError :=
  match f (.cons path (.idx i)) item with
  | .ok _ => []
  | .error e => [locate_error e (Path.cons path (.idx i)).as_list]

/-- Slot-wise values of an isolated list coercion, starting at index `i`. -/
def isolatedValues (f : Path → Value → Except RawError Value) (path : Path) :
    Nat → List Value → List Value
  | _, [] => []
  | i, item :: rest =>
    isolatedItemValue f path i item :: isolatedValues f path (i + 1) rest

/-- Accumulated located errors of an isolated list coercion, starting at
index `i`. -/
def isolatedErrors (f : Path → Value → Except RawError Value) (path : Path) :
    Nat → List Value → List TartifletteError
  | _, [] => []
  | i, item :: rest =>
    isolatedItemErrors f path i item ++ isolatedErrors f path (i + 1) rest

/-- Every item of the list coerces successfully, slot `j` at index
`i + j`. -/
def itemsAllOk (f : Path → Value → Except RawError Value) (path : Path) :
    Nat → List Value → Prop
  | _, [] => True
  | i, item :: rest =>
    (∃ v, f (.cons path (.idx i)) item = .ok v) ∧ itemsAllOk f path (i + 1) rest

end Output

namespace Inputs

/-- The per-field error lists of an input-object coercion, in declaration
order: a sentinel result contributes nothing, any other result all of its
errors. -/
def field_error_lists (results : List (String × Option CoercionResult)) :
    List (List TartifletteError) :=
  results.map fun nr =>
    match nr.2 with
    | none => []
    | some r => r.errors

/-- The coerced-value map an input-object coercion builds: defined,
error-free fields in order, cut off at the first field that reports an
error. -/
def values_before_first_error :
    List (String × Option CoercionResult) → List (String × Value)
  | [] => []
  | (_, none) :: rest => values_before_first_error rest
  | (name, some r) :: rest =>
    if r.errors = [] then (name, r.value) :: values_before_first_error rest
    else []

end Inputs

/-! ## Claim theorems -/

/-- C1: for every field whose output coercion raises an error, the located
error is re-raised upward when the field's static return type is non-null;
otherwise it is appended to the execution context's error list and the
field resolves to `None` without re-raising.  The third conjunct ties
`complete_value_catching_error` to `handle_field_error`. -/
theorem c1_field_error_boundary :
    ∀ (raw : RawError) (path : Path) (rt : GraphQLType) (ctx : ExecutionContext),
      (is_non_null_type rt = true →
        Output.handle_field_error raw path rt ctx =
          (ctx, .error (.gqlError (locate_error raw path.as_list)))) ∧
      (is_non_null_type rt = false →
        Output.handle_field_error raw path rt ctx =
          (⟨ctx.errors ++ [locate_error raw path.as_list]⟩, .ok .vNull)) ∧
      (∀ (oc : OutputCoercer) (v : Value) (ctx₂ : ExecutionContext) (e : RawError),
        oc ctx path v = (ctx₂, .error e) →
        Output.complete_value_catching_error oc rt ctx path (.ok v) =
          Output.handle_field_error e path rt ctx₂) := by
  intro raw path rt ctx
  refine ⟨fun h => ?_, fun h => ?_, fun oc v ctx₂ e h => ?_⟩
  · simp [Output.handle_field_error, h]
  · simp [Output.handle_field_error, h, ExecutionContext.add_error]
  · simp only [Output.complete_value_catching_error, h]

/-- Witness for C1 at concrete inputs: a raw `ValueError` under a non-null
return type is re-raised located, and under a nullable return type is
recorded with the field nulled out. -/
theorem c1_field_error_boundary_witness :
    Output.handle_field_error (.valueError "boom") (.cons .root (.fname "x"))
        (.nonNull (.scalar "Int")) ⟨[]⟩ =
      (⟨[]⟩, .error (.gqlError ⟨"boom", some [.fname "x"]⟩)) ∧
    Output.handle_field_error (.valueError "boom") (.cons .root (.fname "x"))
        (.scalar "Int") ⟨[]⟩ =
      (⟨[⟨"boom", some [.fname "x"]⟩]⟩, .ok .vNull) :=
  ⟨(c1_field_error_boundary (.valueError "boom") (.cons .root (.fname "x"))
      (.nonNull (.scalar "Int")) ⟨[]⟩).1 rfl,
    (c1_field_error_boundary (.valueError "boom") (.cons .root (.fname "x"))
      (.scalar "Int") ⟨[]⟩).2.1 rfl⟩

/-- C2: the non-null output coercer delegates to the inner coercer and
raises the "Cannot return null for non-nullable field parent.field."
`ValueError` exactly when the inner-coerced result is `None`; and for the
schema `type Query [ n: Int! ]` with a resolver returning `None`, the
response has `data = None` and one error with that message and path
`["n"]`, for any scalar output implementation. -/
theorem c2_non_null_output :
    (∀ (inner : OutputCoercer) (pn fn : String) (ctx ctx₂ : ExecutionContext)
        (path : Path) (v : Value),
      (inner ctx path v = (ctx₂, .ok .vNull) →
        Output.non_null_coercer inner pn fn ctx path v =
          (ctx₂, .error (.valueError ("Cannot return null for non-nullable field "
            ++ pn ++ "." ++ fn ++ ".")))) ∧
      (∀ v', inner ctx path v = (ctx₂, .ok v') → v'.is_none = false →
        Output.non_null_coercer inner pn fn ctx path v = (ctx₂, .ok v')) ∧
      (∀ e, inner ctx path v = (ctx₂, .error e) →
        Output.non_null_coercer inner pn fn ctx path v = (ctx₂, .error e))) ∧
    (∀ co : Value → Value,
      Output.execute_single_field_request "n" (.nonNull (.scalar "Int"))
        (Output.non_null_coercer (Output.leaf_coercer co "Int") "Query" "n")
        (.ok .vNull) =
      ⟨none, [⟨"Cannot return null for non-nullable field Query.n.",
        some [.fname "n"]⟩]⟩) := by
  constructor
  · intro inner pn fn ctx ctx₂ path v
    refine ⟨fun h => ?_, fun v' h hv => ?_, fun e h => ?_⟩
    · simp [Output.non_null_coercer, h]
    · cases v' <;> simp_all [Output.non_null_coercer, Value.is_none]
    · simp [Output.non_null_coercer, h]
  · intro co
    rfl

/-- Witness for C2's delegation characterization at a concrete inner
coercer returning `None`. -/
theorem c2_non_null_output_witness :
    Output.non_null_coercer (Output.pureCoercer fun _ _ => .ok .vNull)
        "Query" "n" ⟨[]⟩ .root .vNull =
      (⟨[]⟩, .error (.valueError "Cannot return null for non-nullable field Query.n.")) :=
  (c2_non_null_output.1 (Output.pureCoercer fun _ _ => .ok .vNull)
    "Query" "n" ⟨[]⟩ ⟨[]⟩ .root .vNull).1 rfl

/-- C8: a `None` input value short-circuits any null-wrapped input coercer
to `CoercionResult(value=None)`, while at a `NonNull` wrapper a `None`
input yields exactly the one "Expected non-nullable type ... not to be
null" error without invoking the inner coercer (the result does not
depend on it). -/
theorem c8_input_null_handling :
    ∀ (coercer : InputCoercer) (path : Option Path) (st : GraphQLType)
      (inner₁ inner₂ : InputCoercer),
      Inputs.null_coercer_wrapper coercer .vNull path = { value := .vNull } ∧
      Inputs.non_null_coercer st inner₁ .vNull path =
        { errors := [coercion_error ("Expected non-nullable type < "
            ++ st.render ++ " > not to be null") path] } ∧
      Inputs.non_null_coercer st inner₁ .vNull path =
        Inputs.non_null_coercer st inner₂ .vNull path := by
  intro coercer path st inner₁ inner₂
  exact ⟨rfl, rfl, rfl⟩

/-- C9: an argument whose definition carries a default literal and for
which no value is present — no argument node at all, or a variable
reference absent from the variable map — coerces to the literal-coerced
default, for every declared argument type including non-null ones,
because the default branch precedes the required-argument check. -/
theorem c9_default_before_required :
    ∀ (ad : GraphQLArgument) (d : ValueNode) (vm : VariableMap)
      (an_name vn : String),
      ad.default_value = some d →
      ad.directives = none →
      (Arguments.argument_coercer ad none vm = .ok (ad.literal_coercer d vm)) ∧
      (dictGet vm vn = none →
        Arguments.argument_coercer ad (some ⟨an_name, .variableNode vn⟩) vm =
          .ok (ad.literal_coercer d vm)) := by
  intro ad d vm an_name vn hd hdir
  constructor
  · simp [Arguments.argument_coercer, Arguments.argument_coerced_value,
      Arguments.argument_presence, hd, hdir]
  · intro hvn
    simp [Arguments.argument_coercer, Arguments.argument_coerced_value,
      Arguments.argument_presence, hd, hdir, hvn]

/-- Witness for C9 at a concrete non-null argument: with a declared
default `1` and no supplied value, the coerced value is `1` even though
the type is `Int!`. -/
theorem c9_default_before_required_witness :
    Arguments.argument_coercer
        ⟨"a", .nonNull (.scalar "Int"), some (.intValue 1),
          (fun n _ => match n with | .intValue k => .vInt k | _ => .vUndefined),
          none⟩
        none [] = .ok (.vInt 1) ∧
    Arguments.argument_coercer
        ⟨"a", .nonNull (.scalar "Int"), some (.intValue 1),
          (fun n _ => match n with | .intValue k => .vInt k | _ => .vUndefined),
          none⟩
        (some ⟨"a", .variableNode "v"⟩) [] = .ok (.vInt 1) :=
  ⟨(c9_default_before_required _ (.intValue 1) [] "a" "v" rfl rfl).1,
    (c9_default_before_required _ (.intValue 1) [] "a" "v" rfl rfl).2 rfl⟩

/-- C10: a declared operation variable with a nullable input type, no
default and no supplied raw value coerces to the `UNDEFINED_VALUE`
sentinel, and `coerce_variables` then omits it entirely from the coerced
variable map while recording no error: prepending such a definition
leaves the result of `coerce_variables` unchanged. -/
theorem c10_omitted_nullable_variable :
    ∀ (vd : ExecutableVariableDefinition) (raw : List (String × Value))
      (rest : List ExecutableVariableDefinition),
      is_non_null_type vd.graphql_type = false →
      is_input_type vd.graphql_type = true →
      vd.default_value = none →
      dictGet raw vd.name = none →
      Variables.variable_coercer vd raw = none ∧
      Variables.coerce_variables (vd :: rest) raw =
        Variables.coerce_variables rest raw := by
  intro vd raw rest hnn hin hdef hraw
  have hvc : Variables.variable_coercer vd raw = none := by
    simp [Variables.variable_coercer, hin, hdef, hraw, hnn]
  refine ⟨hvc, ?_⟩
  simp [Variables.coerce_variables, hvc]

/-- Witness for C10 at a concrete nullable `Int` variable omitted from an
empty request: it is skipped and contributes nothing. -/
theorem c10_omitted_nullable_variable_witness :
    Variables.variable_coercer
        ⟨"v", .scalar "Int", none, (fun v => { value := v }), (fun _ => .vUndefined)⟩
        [] = none ∧
    Variables.coerce_variables
        [⟨"v", .scalar "Int", none, (fun v => { value := v }), (fun _ => .vUndefined)⟩]
        [] = ([], []) :=
  ⟨(c10_omitted_nullable_variable
      ⟨"v", .scalar "Int", none, (fun v => { value := v }), (fun _ => .vUndefined)⟩
      [] [] rfl rfl rfl rfl).1,
    (c10_omitted_nullable_variable
      ⟨"v", .scalar "Int", none, (fun v => { value := v }), (fun _ => .vUndefined)⟩
      [] [] rfl rfl rfl rfl).2⟩

/-- C5: coercing the arguments of one node runs every argument's coercer,
collects the errors raised by all of them in definition order, and
surfaces them together as one aggregate failure; in particular a field
with two required non-null arguments, both omitted, produces exactly the
two per-argument errors, not one. -/
theorem c5_aggregate_argument_errors :
    (∀ (defs : List GraphQLArgument) (ans : List ArgumentNode) (vm : VariableMap),
      defs ≠ [] →
      ((defs.filterMap fun ad =>
          match Arguments.argument_coercer ad
              (dictGet (ans.map fun an => (an.name, an)) ad.name) vm with
          | .error e => some e
          | .ok _ => none) ≠ [] →
        Arguments.coerce_arguments defs (some ans) vm =
          .error (defs.filterMap fun ad =>
            match Arguments.argument_coercer ad
                (dictGet (ans.map fun an => (an.name, an)) ad.name) vm with
            | .error e => some e
            | .ok _ => none)) ∧
      ((defs.filterMap fun ad =>
          match Arguments.argument_coercer ad
              (dictGet (ans.map fun an => (an.name, an)) ad.name) vm with
          | .error e => some e
          | .ok _ => none) = [] →
        Arguments.coerce_arguments defs (some ans) vm =
          .ok (defs.filterMap fun ad =>
            match Arguments.argument_coercer ad
                (dictGet (ans.map fun an => (an.name, an)) ad.name) vm with
            | .ok v => if is_invalid_value v then none else some (ad.name, v)
            | .error _ => none))) ∧
    Arguments.coerce_arguments
        [⟨"a", .nonNull (.scalar "Int"), none, (fun _ _ => .vUndefined), none⟩,
          ⟨"b", .nonNull (.scalar "String"), none, (fun _ _ => .vUndefined), none⟩]
        (some []) [] =
      .error
        [⟨"Argument < a > of required type < Int! > was not provided.", none⟩,
          ⟨"Argument < b > of required type < String! > was not provided.", none⟩] := by
  constructor
  · intro defs ans vm hne
    have hmap :
        (defs.map fun ad => (ad.name, Arguments.argument_coercer ad
            (dictGet (ans.map fun an => (an.name, an)) ad.name) vm)).filterMap
          (fun nr => match nr.2 with
            | .error e => some e
            | .ok _ => none) =
        defs.filterMap fun ad =>
          match Arguments.argument_coercer ad
              (dictGet (ans.map fun an => (an.name, an)) ad.name) vm with
          | .error e => some e
          | .ok _ => none := by
      rw [List.filterMap_map]
      rfl
    have hmap₂ :
        (defs.map fun ad => (ad.name, Arguments.argument_coercer ad
            (dictGet (ans.map fun an => (an.name, an)) ad.name) vm)).filterMap
          (fun nr => match nr.2 with
            | .ok v => if is_invalid_value v then none else some (nr.1, v)
            | .error _ => none) =
        defs.filterMap fun ad =>
          match Arguments.argument_coercer ad
              (dictGet (ans.map fun an => (an.name, an)) ad.name) vm with
          | .ok v => if is_invalid_value v then none else some (ad.name, v)
          | .error _ => none := by
      rw [List.filterMap_map]
      rfl
    constructor
    · intro herr
      simp only [Arguments.coerce_arguments, List.isEmpty_eq_false.mpr hne,
        if_false, hmap, hmap₂]
      simp [List.isEmpty_eq_false.mpr herr]
    · intro herr
      simp only [Arguments.coerce_arguments, List.isEmpty_eq_false.mpr hne,
        if_false, hmap, hmap₂]
      simp [herr]
  · rfl

/-- Witness for C5's general aggregation at a concrete single omitted
required argument. -/
theorem c5_aggregate_argument_errors_witness :
    Arguments.coerce_arguments
        [⟨"c", .nonNull (.scalar "Int"), none, (fun _ _ => .vUndefined), none⟩]
        (some []) [] =
      .error [⟨"Argument < c > of required type < Int! > was not provided.", none⟩] :=
  (c5_aggregate_argument_errors.1
      [⟨"c", .nonNull (.scalar "Int"), none, (fun _ _ => .vUndefined), none⟩]
      [] [] (List.cons_ne_nil _ _)).1 (by decide)

/-- C4: for an argument bound to a variable reference whose declared
variable has a default — when the variable is omitted from the request,
variable coercion stores the literal-coerced default and the argument
resolves to it; when the variable is explicitly supplied as `null` and
the argument's type is nullable, the argument resolves to `null` and the
default is not applied. -/
theorem c4_variable_default_interplay :
    ∀ (vd : ExecutableVariableDefinition) (ad : GraphQLArgument)
      (an_name : String) (raw : List (String × Value)) (d : ValueNode),
      vd.default_value = some d →
      is_input_type vd.graphql_type = true →
      ad.directives = none →
      is_non_null_type ad.graphql_type = false →
      (dictGet raw vd.name = none →
        Variables.coerce_variables [vd] raw = ([(vd.name, vd.literal_coercer d)], []) ∧
        Arguments.argument_coercer ad (some ⟨an_name, .variableNode vd.name⟩)
            (Variables.coerce_variables [vd] raw).1 =
          .ok (vd.literal_coercer d)) ∧
      (dictGet raw vd.name = some .vNull →
        is_non_null_type vd.graphql_type = false →
        vd.input_coercer .vNull = { value := .vNull } →
        Variables.coerce_variables [vd] raw = ([(vd.name, .vNull)], []) ∧
        Arguments.argument_coercer ad (some ⟨an_name, .variableNode vd.name⟩)
            (Variables.coerce_variables [vd] raw).1 = .ok .vNull) := by
  intro vd ad an_name raw d hd hin hdir hat
  constructor
  · intro hraw
    have hcv : Variables.coerce_variables [vd] raw =
        ([(vd.name, vd.literal_coercer d)], []) := by
      simp [Variables.coerce_variables, Variables.variable_coercer, hin, hd, hraw]
    refine ⟨hcv, ?_⟩
    rw [hcv]
    simp [Arguments.argument_coercer, Arguments.argument_coerced_value,
      Arguments.argument_presence, dictGet, hdir, hat]
  · intro hraw hvnn hic
    have hcv : Variables.coerce_variables [vd] raw = ([(vd.name, .vNull)], []) := by
      simp [Variables.coerce_variables, Variables.variable_coercer, hin, hd,
        hraw, hvnn, hic, Value.is_none]
    refine ⟨hcv, ?_⟩
    rw [hcv]
    simp [Arguments.argument_coercer, Arguments.argument_coerced_value,
      Arguments.argument_presence, dictGet, hdir, hat, Value.is_none]

/-- Witness for C4 at a concrete `Int` variable with default `4`: omitting
it yields the default `4`, supplying it as null yields `null`. -/
theorem c4_variable_default_interplay_witness :
    (Variables.coerce_variables
        [⟨"v", .scalar "Int", some (.intValue 4), (fun v => { value := v }),
          (fun n => match n with | .intValue k => .vInt k | _ => .vUndefined)⟩]
        [] = ([("v", .vInt 4)], []) ∧
      Arguments.argument_coercer
        ⟨"a", .scalar "Int", none, (fun _ _ => .vUndefined), none⟩
        (some ⟨"a", .variableNode "v"⟩) [("v", .vInt 4)] = .ok (.vInt 4)) ∧
    (Variables.coerce_variables
        [⟨"v", .scalar "Int", some (.intValue 4), (fun v => { value := v }),
          (fun n => match n with | .intValue k => .vInt k | _ => .vUndefined)⟩]
        [("v", .vNull)] = ([("v", .vNull)], []) ∧
      Arguments.argument_coercer
        ⟨"a", .scalar "Int", none, (fun _ _ => .vUndefined), none⟩
        (some ⟨"a", .variableNode "v"⟩) [("v", .vNull)] = .ok .vNull) :=
  ⟨(c4_variable_default_interplay
      ⟨"v", .scalar "Int", some (.intValue 4), (fun v => { value := v }),
        (fun n => match n with | .intValue k => .vInt k | _ => .vUndefined)⟩
      ⟨"a", .scalar "Int", none, (fun _ _ => .vUndefined), none⟩
      "a" [] (.intValue 4) rfl rfl rfl rfl).1 rfl,
    (c4_variable_default_interplay
      ⟨"v", .scalar "Int", some (.intValue 4), (fun v => { value := v }),
        (fun n => match n with | .intValue k => .vInt k | _ => .vUndefined)⟩
      ⟨"a", .scalar "Int", none, (fun _ _ => .vUndefined), none⟩
      "a" [("v", .vNull)] (.intValue 4) rfl rfl rfl rfl).2 rfl rfl rfl⟩

/-- Helper: with a nullable item type, the output list items loop never
aborts — every item's failure is absorbed by `handle_field_error`, the
slot becomes `None`, the located error is appended, and the remaining
items still run. -/
theorem coerce_list_items_isolated (f : Path → Value → Except RawError Value)
    (it : GraphQLType) (hn : is_non_null_type it = false) :
    ∀ (items : List Value) (ctx : ExecutionContext) (path : Path) (i : Nat),
      Output.coerce_list_items (Output.pureCoercer f) it ctx path i items =
        (⟨ctx.errors ++ Output.isolatedErrors f path i items⟩,
          .ok (Output.isolatedValues f path i items)) := by
  intro items
  induction items with
  | nil =>
    intro ctx path i
    simp [Output.coerce_list_items, Output.isolatedErrors, Output.isolatedValues]
  | cons x xs ih =>
    intro ctx path i
    cases h : f (.cons path (.idx i)) x with
    | ok v =>
      simp [Output.coerce_list_items, Output.complete_value_catching_error,
        Output.pureCoercer, h, ih, Output.isolatedErrors, Output.isolatedValues,
        Output.isolatedItemErrors, Output.isolatedItemValue]
    | error e =>
      simp [Output.coerce_list_items, Output.complete_value_catching_error,
        Output.pureCoercer, h, Output.handle_field_error, hn,
        ExecutionContext.add_error, ih, Output.isolatedErrors,
        Output.isolatedValues, Output.isolatedItemErrors,
        Output.isolatedItemValue]

/-- Helper: with a non-null item type, the first failing item's located
error re-raises out of the output list items loop, aborting the remaining
items without touching the execution context. -/
theorem coerce_list_items_non_null_abort
    (f : Path → Value → Except RawError Value) (it : GraphQLType)
    (hn : is_non_null_type it = true) :
    ∀ (pre : List Value) (bad : Value) (post : List Value) (e : RawError)
      (ctx : ExecutionContext) (path : Path) (i : Nat),
      Output.itemsAllOk f path i pre →
      f (.cons path (.idx (i + pre.length))) bad = .error e →
      Output.coerce_list_items (Output.pureCoercer f) it ctx path i
          (pre ++ bad :: post) =
        (ctx, .error (.gqlError (locate_error e
          (Path.cons path (.idx (i + pre.length))).as_list))) := by
  intro pre
  induction pre with
  | nil =>
    intro bad post e ctx path i _ hbad
    simp only [List.length_nil, Nat.add_zero] at hbad
    simp [Output.coerce_list_items, Output.complete_value_catching_error,
      Output.pureCoercer, hbad, Output.handle_field_error, hn]
  | cons x xs ih =>
    intro bad post e ctx path i hall hbad
    obtain ⟨⟨v, hv⟩, hrest⟩ := hall
    have harith : i + (x :: xs).length = i + 1 + xs.length := by
      simp [List.length_cons]
      omega
    rw [harith] at hbad ⊢
    have hrec := ih bad post e ctx path (i + 1) hrest hbad
    simp [Output.coerce_list_items, Output.complete_value_catching_error,
      Output.pureCoercer, hv, hrec]

/-- C3: output coercion of a list requires the resolved result to be a
list and raises the "Expected Iterable..." `TypeError` otherwise; items
are coerced independently at `path + index`, a single item's exception is
isolated like a field-level error — its slot becomes `None`, its located
error is recorded, and siblings are unaffected — unless the item type is
non-null, in which case the exception re-raises to the parent. -/
theorem c3_output_list_isolation :
    ∀ (f : Path → Value → Except RawError Value) (it : GraphQLType)
      (pn fn : String) (ctx : ExecutionContext) (path : Path),
      (∀ v : Value, v.is_none = false → (∀ items, v ≠ .vList items) →
        Output.list_coercer (Output.pureCoercer f) it pn fn ctx path v =
          (ctx, .error (.typeError ("Expected Iterable, but did not find one for field "
            ++ pn ++ "." ++ fn ++ ".")))) ∧
      (is_non_null_type it = false → ∀ items,
        Output.list_coercer (Output.pureCoercer f) it pn fn ctx path (.vList items) =
          (⟨ctx.errors ++ Output.isolatedErrors f path 0 items⟩,
            .ok (.vList (Output.isolatedValues f path 0 items)))) ∧
      (is_non_null_type it = true →
        ∀ (pre : List Value) (bad : Value) (post : List Value) (e : RawError),
          Output.itemsAllOk f path 0 pre →
          f (.cons path (.idx pre.length)) bad = .error e →
          Output.list_coercer (Output.pureCoercer f) it pn fn ctx path
              (.vList (pre ++ bad :: post)) =
            (ctx, .error (.gqlError (locate_error e
              (Path.cons path (.idx pre.length)).as_list)))) := by
  intro f it pn fn ctx path
  refine ⟨fun v hnull hnlist => ?_, fun hn items => ?_, fun hn pre bad post e hall hbad => ?_⟩
  · cases v with
    | vNull => simp [Value.is_none] at hnull
    | vList items => exact absurd rfl (hnlist items)
    | vUndefined => rfl
    | vInt n => rfl
    | vStr s => rfl
    | vBool b => rfl
    | vObj fields => rfl
  · simp [Output.list_coercer, coerce_list_items_isolated f it hn]
  · have h := coerce_list_items_non_null_abort f it hn pre bad post e ctx path 0 hall
    simp only [Nat.zero_add] at h
    simp [Output.list_coercer, h hbad]

/-- Witness for C3 at a concrete scalar item coercer on `[1, "x", 2]`:
with nullable `Int` items, the bad middle slot becomes `None` with one
located error at index 1 and both siblings survive; with non-null `Int!`
items, the same list re-raises the located error to the parent; a
non-list result raises the `TypeError`. -/
theorem c3_output_list_isolation_witness :
    Output.list_coercer
        (Output.pureCoercer fun _ v => match v with
          | .vInt n => .ok (.vInt n)
          | _ => .error (.valueError "bad item"))
        (.scalar "Int") "Query" "xs" ⟨[]⟩ (.cons .root (.fname "xs"))
        (.vList [.vInt 1, .vStr "x", .vInt 2]) =
      (⟨[⟨"bad item", some [.fname "xs", .idx 1]⟩]⟩,
        .ok (.vList [.vInt 1, .vNull, .vInt 2])) ∧
    Output.list_coercer
        (Output.pureCoercer fun _ v => match v with
          | .vInt n => .ok (.vInt n)
          | _ => .error (.valueError "bad item"))
        (.nonNull (.scalar "Int")) "Query" "xs" ⟨[]⟩ (.cons .root (.fname "xs"))
        (.vList [.vInt 1, .vStr "x", .vInt 2]) =
      (⟨[]⟩, .error (.gqlError ⟨"bad item", some [.fname "xs", .idx 1]⟩)) ∧
    Output.list_coercer
        (Output.pureCoercer fun _ v => match v with
          | .vInt n => .ok (.vInt n)
          | _ => .error (.valueError "bad item"))
        (.scalar "Int") "Query" "xs" ⟨[]⟩ (.cons .root (.fname "xs"))
        (.vStr "oops") =
      (⟨[]⟩, .error (.typeError
        "Expected Iterable, but did not find one for field Query.xs.")) := by
  refine ⟨?_, ?_, ?_⟩
  · exact (c3_output_list_isolation
      (fun _ v => match v with
        | .vInt n => .ok (.vInt n)
        | _ => .error (.valueError "bad item"))
      (.scalar "Int") "Query" "xs" ⟨[]⟩ (.cons .root (.fname "xs"))).2.1 rfl
      [.vInt 1, .vStr "x", .vInt 2]
  · exact (c3_output_list_isolation
      (fun _ v => match v with
        | .vInt n => .ok (.vInt n)
        | _ => .error (.valueError "bad item"))
      (.nonNull (.scalar "Int")) "Query" "xs" ⟨[]⟩ (.cons .root (.fname "xs"))).2.2 rfl
      [.vInt 1] (.vStr "x") [.vInt 2] (.valueError "bad item")
      ⟨⟨.vInt 1, rfl⟩, trivial⟩ rfl
  · exact (c3_output_list_isolation
      (fun _ v => match v with
        | .vInt n => .ok (.vInt n)
        | _ => .error (.valueError "bad item"))
      (.scalar "Int") "Query" "xs" ⟨[]⟩ (.cons .root (.fname "xs"))).1
      (.vStr "oops") rfl (fun _ h => Value.noConfusion h)

/-- Helper: the error component of the input-object aggregation loop is
the starting accumulator followed by every field's errors, in order —
no field's errors are dropped because of a sibling. -/
theorem collect_input_fields_errors_join :
    ∀ (rs : List (String × Option CoercionResult))
      (errors : List TartifletteError) (values : List (String × Value)),
      (Inputs.collect_input_fields rs errors values).1 =
        errors ++ (Inputs.field_error_lists rs).flatten := by
  intro rs
  induction rs with
  | nil =>
    intro errors values
    simp [Inputs.collect_input_fields, Inputs.field_error_lists]
  | cons nr rest ih =>
    intro errors values
    obtain ⟨name, r⟩ := nr
    cases r with
    | none => simp [Inputs.collect_input_fields, Inputs.field_error_lists, ih]
    | some result =>
      by_cases he : result.errors = []
      · by_cases hacc : errors = [] <;>
          simp [Inputs.collect_input_fields, Inputs.field_error_lists, he, hacc, ih]
      · simp [Inputs.collect_input_fields, Inputs.field_error_lists, he, ih]

/-- Helper: once the error accumulator of the input-object aggregation
loop is non-empty, no further field value is added to the value map. -/
theorem collect_input_fields_values_stop :
    ∀ (rs : List (String × Option CoercionResult))
      (errors : List TartifletteError) (values : List (String × Value)),
      errors ≠ [] →
      (Inputs.collect_input_fields rs errors values).2 = values := by
  intro rs
  induction rs with
  | nil => intro errors values _; rfl
  | cons nr rest ih =>
    intro errors values hne
    obtain ⟨name, r⟩ := nr
    cases r with
    | none => simp [Inputs.collect_input_fields, ih errors values hne]
    | some result =>
      by_cases he : result.errors = []
      · simp [Inputs.collect_input_fields, he, hne, ih errors values hne]
      · have : errors ++ result.errors ≠ [] := by
          simp [he]
        simp [Inputs.collect_input_fields, he, ih (errors ++ result.errors) values this]

/-- Helper: starting with no errors, the value map built by the
input-object aggregation loop is the starting accumulator followed by the
defined, error-free fields up to the first erroring one. -/
theorem collect_input_fields_values_closed :
    ∀ (rs : List (String × Option CoercionResult)) (values : List (String × Value)),
      (Inputs.collect_input_fields rs [] values).2 =
        values ++ Inputs.values_before_first_error rs := by
  intro rs
  induction rs with
  | nil => intro values; simp [Inputs.collect_input_fields, Inputs.values_before_first_error]
  | cons nr rest ih =>
    intro values
    obtain ⟨name, r⟩ := nr
    cases r with
    | none => simp [Inputs.collect_input_fields, Inputs.values_before_first_error, ih]
    | some result =>
      by_cases he : result.errors = []
      · simp [Inputs.collect_input_fields, Inputs.values_before_first_error, he, ih]
      · simp [Inputs.collect_input_fields, Inputs.values_before_first_error, he,
          collect_input_fields_values_stop rest result.errors values he]

/-- C6: input coercion of an input object runs the input coercer for
every declared field, collects all field errors without stopping at the
first (the result's errors are the concatenation of every field's errors,
so no sibling's error suppresses another's), adds a field's coerced value
to the result map only while no error has yet been seen, and emits one
error per supplied key that is not among the declared fields. -/
theorem c6_input_object_horizontal_completeness :
    ∀ (input_object_type : Inputs.GraphQLInputObjectType) (path : Option Path)
      (supplied : List (String × Value)),
      (Inputs.input_object_coercer input_object_type (.vObj supplied) path).errors =
        (Inputs.field_error_lists (input_object_type.arguments.map fun nf =>
          (nf.1, Inputs.input_field_value_coercer nf.2
            ((dictGet supplied nf.1).getD .vUndefined)
            (mkPath path (.fname nf.1))))).flatten
          ++ Inputs.unknown_field_errors input_object_type supplied path ∧
      (Inputs.input_object_coercer input_object_type (.vObj supplied) path).value =
        .vObj (Inputs.values_before_first_error
          (input_object_type.arguments.map fun nf =>
            (nf.1, Inputs.input_field_value_coercer nf.2
              ((dictGet supplied nf.1).getD .vUndefined)
              (mkPath path (.fname nf.1))))) := by
  intro input_object_type path supplied
  constructor
  · simp [Inputs.input_object_coercer, collect_input_fields_errors_join]
  · simp [Inputs.input_object_coercer, collect_input_fields_values_closed]

/-- Helper: with a non-null item type, the first missing-variable item
short-circuits the literal list items loop to the `UNDEFINED_VALUE`
sentinel, no matter what follows it. -/
theorem coerce_literal_list_items_missing_abort
    (inner : LiteralCoercer) (varMap : VariableMap) :
    ∀ (pre : List ValueNode) (miss : ValueNode) (post : List ValueNode),
      (∀ it ∈ pre, Literals.is_missing_variable it varMap = false ∧
        is_invalid_value (inner (some it) varMap) = false) →
      Literals.is_missing_variable miss varMap = true →
      Literals.coerce_literal_list_items true inner varMap (pre ++ miss :: post) =
        .vUndefined := by
  intro pre
  induction pre with
  | nil =>
    intro miss post _ hmiss
    simp [Literals.coerce_literal_list_items, hmiss]
  | cons x xs ih =>
    intro miss post hpre hmiss
    obtain ⟨hxm, hxv⟩ := hpre x (List.mem_cons_self x xs)
    have hrest := ih miss post
      (fun it hit => hpre it (List.mem_cons_of_mem x hit)) hmiss
    simp [Literals.coerce_literal_list_items, hxm, hxv, hrest]

/-- Helper: with a nullable item type, a missing-variable item becomes
`None` and coercion continues; when every non-missing item coerces to a
valid value, the loop returns the slot-wise list. -/
theorem coerce_literal_list_items_nullable
    (inner : LiteralCoercer) (varMap : VariableMap) :
    ∀ (items : List ValueNode),
      (∀ it ∈ items, Literals.is_missing_variable it varMap = false →
        is_invalid_value (inner (some it) varMap) = false) →
      Literals.coerce_literal_list_items false inner varMap items =
        .vList (items.map fun it =>
          if Literals.is_missing_variable it varMap then .vNull
          else inner (some it) varMap) := by
  intro items
  induction items with
  | nil => intro _; rfl
  | cons x xs ih =>
    intro h
    have hrest := ih fun it hit => h it (List.mem_cons_of_mem x hit)
    by_cases hxm : Literals.is_missing_variable x varMap = true
    · simp [Literals.coerce_literal_list_items, hxm, hrest]
    · have hxm' : Literals.is_missing_variable x varMap = false := by
        simpa using hxm
      have hxv := h x (List.mem_cons_self x xs) hxm'
      simp [Literals.coerce_literal_list_items, hxm', hxv, hrest]

/-- C7: literal coercion of a list value node is sequential and
order-dependent — a missing-variable item makes the whole list the
`UNDEFINED_VALUE` sentinel (ABSENT) when the item type is non-null, but
becomes `None` with coercion continuing when the item type is nullable;
and a non-list value node is coerced as a single-element list. -/
theorem c7_literal_list_missing_variable :
    ∀ (inner : LiteralCoercer) (varMap : VariableMap),
      (∀ (pre : List ValueNode) (miss : ValueNode) (post : List ValueNode),
        (∀ it ∈ pre, Literals.is_missing_variable it varMap = false ∧
          is_invalid_value (inner (some it) varMap) = false) →
        Literals.is_missing_variable miss varMap = true →
        Literals.list_coercer true inner
          (some (.listValue (pre ++ miss :: post))) varMap = .vUndefined) ∧
      (∀ (items : List ValueNode),
        (∀ it ∈ items, Literals.is_missing_variable it varMap = false →
          is_invalid_value (inner (some it) varMap) = false) →
        Literals.list_coercer false inner (some (.listValue items)) varMap =
          .vList (items.map fun it =>
            if Literals.is_missing_variable it varMap then .vNull
            else inner (some it) varMap)) ∧
      (∀ (is_non_null_item_type : Bool) (node : ValueNode),
        node ≠ .nullValue → (∀ n, node ≠ .variableNode n) →
        (∀ vs, node ≠ .listValue vs) →
        Literals.list_coercer is_non_null_item_type inner (some node) varMap =
          (if is_invalid_value (inner (some node) varMap) then .vUndefined
            else .vList [inner (some node) varMap])) := by
  intro inner varMap
  refine ⟨fun pre miss post hpre hmiss => ?_, fun items h => ?_,
    fun b node hnn hnv hnl => ?_⟩
  · simp [Literals.list_coercer, Literals.null_and_variable_coercer_wrapper,
      coerce_literal_list_items_missing_abort inner varMap pre miss post hpre hmiss]
  · simp [Literals.list_coercer, Literals.null_and_variable_coercer_wrapper,
      coerce_literal_list_items_nullable inner varMap items h]
  · cases node with
    | nullValue => exact absurd rfl hnn
    | variableNode n => exact absurd rfl (hnv n)
    | listValue vs => exact absurd rfl (hnl vs)
    | intValue n => rfl
    | stringValue s => rfl
    | booleanValue b₂ => rfl
    | enumValue s => rfl
    | objectValue fields => rfl

/-- Witness for C7 at a concrete integer literal coercer: list
`[1, $m]` with variable `m` missing is ABSENT for a non-null item type,
`[1, None]` for a nullable one, and the bare literal `5` coerces as the
single-element list `[5]`. -/
theorem c7_literal_list_missing_variable_witness :
    Literals.list_coercer true
        (fun n _ => match n with | some (.intValue k) => .vInt k | _ => .vUndefined)
        (some (.listValue [.intValue 1, .variableNode "m"])) [] = .vUndefined ∧
    Literals.list_coercer false
        (fun n _ => match n with | some (.intValue k) => .vInt k | _ => .vUndefined)
        (some (.listValue [.intValue 1, .variableNode "m"])) [] =
      .vList [.vInt 1, .vNull] ∧
    Literals.list_coercer true
        (fun n _ => match n with | some (.intValue k) => .vInt k | _ => .vUndefined)
        (some (.intValue 5)) [] = .vList [.vInt 5] := by
  refine ⟨?_, ?_, ?_⟩
  · exact (c7_literal_list_missing_variable
      (fun n _ => match n with | some (.intValue k) => .vInt k | _ => .vUndefined)
      []).1 [.intValue 1] (.variableNode "m") []
      (by intro it hit; simp at hit; subst hit; exact ⟨rfl, rfl⟩) rfl
  · exact (c7_literal_list_missing_variable
      (fun n _ => match n with | some (.intValue k) => .vInt k | _ => .vUndefined)
      []).2.1 [.intValue 1, .variableNode "m"]
      (by
        intro it hit hm
        simp only [List.mem_cons, List.not_mem_nil, or_false] at hit
        rcases hit with h | h
        · subst h; rfl
        · subst h; simp [Literals.is_missing_variable] at hm)
  · exact (c7_literal_list_missing_variable
      (fun n _ => match n with | some (.intValue k) => .vInt k | _ => .vUndefined)
      []).2.2 true (.intValue 5) (fun h => ValueNode.noConfusion h)
      (fun _ h => ValueNode.noConfusion h) (fun _ h => ValueNode.noConfusion h)

end Tartiflette
